import Mathlib

set_option maxRecDepth 4000

/-!
Verification of the opensea-client-rs wire-format layer.

The Rust source is shallowly embedded: JSON documents become an inductive
`Json` (number literals in the fragment exercised here are integers), 256-bit
machine integers become `Nat` with explicit `2 ^ 256` bounds, serde
deserializers become total Lean functions `Json → Except _ _`, and serializers
become functions into `Json` / `String`.
-/

namespace OpenSea

/-- The fragment of JSON this client exchanges.  Number literals are modelled
as integers (`Int`): every number the embedded code paths consume or produce
is an integer literal; floats are outside the modelled fragment. -/
inductive Json where
  | null : Json
  | bool (b : Bool) : Json
  | num (n : Int) : Json
  | str (s : String) : Json
  | arr (elems : List Json) : Json
  | obj (fields : List (String × Json)) : Json

/-- Decimal/hex digit emission loop: structurally recursive (fuel) model of the
digit loops behind `u64::to_string`, ruint `Display` (base 10) and the
lowercase hex encoders of `alloy_primitives` (base 16).  Emits most-significant
digit first into `acc`. -/
def natBaseReprGo (base : Nat) : Nat → Nat → List Char → List Char
  | 0, _, acc => acc
  | f + 1, n, acc =>
    if n < base then Nat.digitChar n :: acc
    else natBaseReprGo base f (n / base) (Nat.digitChar (n % base) :: acc)

/-- Decimal representation of a `Nat`; model of `u64::to_string()`, ruint
`U256::to_string()` (its `Display` prints base-10 digits) and
`BigInt::to_str_radix(10)` on nonnegative input. -/
def natDecRepr (n : Nat) : String :=
  String.mk (natBaseReprGo 10 (n + 1) n [])

/-- Canonical decimal text of an integer: model of `serde_json::Number::as_str`
(arbitrary-precision number storage) and of integer `Display`. -/
def numberAsStr (i : Int) : String :=
  if i < 0 then "-" ++ natDecRepr (-i).toNat else natDecRepr i.toNat

/-- Lowercase hex digit list of `n`, most significant first. -/
def natHexChars (n : Nat) : List Char :=
  natBaseReprGo 16 (n + 1) n []

/-- Fixed-width lowercase hex body (zero padded), as `alloy_primitives`
serialization of `FixedBytes` emits. -/
def natToHexFixed (width n : Nat) : String :=
  String.mk (List.replicate (width - (natHexChars n).length) '0' ++ natHexChars n)

/-- Wire form of a 20-byte address (`alloy_primitives::Address` serde:
`0x` + 40 lowercase hex digits). -/
def addressToHex (a : Nat) : String := "0x" ++ natToHexFixed 40 a

/-- Wire form of a 32-byte hash (`alloy_primitives::B256` serde:
`0x` + 64 lowercase hex digits). -/
def b256ToHex (h : Nat) : String := "0x" ++ natToHexFixed 64 h

/-- Fuel-indexed body of `Json.render`: the fuel makes the recursion through
the nested lists structural (and so kernel-reducible).  The fuel only has to
dominate the nesting depth of the document; `Json.render` passes 64, far above
the depth of any document in this development (≤ 5). -/
def Json.renderGo : Nat → Json → String
  | 0, _ => ""
  | _ + 1, .null => "null"
  | _ + 1, .bool b => if b then "true" else "false"
  | _ + 1, .num i => numberAsStr i
  | _ + 1, .str s => "\"" ++ s ++ "\""
  | f + 1, .arr es => "[" ++ ",".intercalate (es.map (Json.renderGo f)) ++ "]"
  | f + 1, .obj fs =>
    "\x7b" ++
      ",".intercalate (fs.map fun p => "\"" ++ p.1 ++ "\":" ++ Json.renderGo f p.2) ++ "\x7d"

/-- Compact JSON text rendering, as `serde_json::to_string` emits it (string
escaping is the identity on the strings this development renders: none of them
contains a quote, backslash or control character). -/
def Json.render (j : Json) : String := Json.renderGo 64 j

/-- Errors of ruint string parsing (`ruint::ParseError`): an unusable character,
or a value exceeding 256 bits. -/
inductive UintParseError where
  | invalidDigit (c : Char)
  | overflow
deriving DecidableEq

/-- Digit value of a character for radices up to 36, case-insensitive:
`'0'..='9'`, `'a'..='z'`, `'A'..='Z'` as in ruint `Uint::from_str_radix`
(its radix > 36 digit set is unreachable from `from_str` and not modelled). -/
def charDigitVal (c : Char) : Option Nat :=
  if c.isDigit then some (c.toNat - '0'.toNat)
  else if c.isLower then some (c.toNat - 'a'.toNat + 10)
  else if c.isUpper then some (c.toNat - 'A'.toNat + 10)
  else none

/-- Loop of ruint `Uint::from_str_radix`, specialized to 256 bits: underscores
are skipped as digit separators, each digit must be below the radix, and the
accumulator update `acc * radix + d` is overflow-checked against `2 ^ 256`
(the `checked_mul`/`checked_add` pair of the source). -/
def uintFromStrRadixGo (radix : Nat) : List Char → Nat → Except UintParseError Nat
  | [], acc => .ok acc
  | c :: cs, acc =>
    if c = '_' then uintFromStrRadixGo radix cs acc
    else
      match charDigitVal c with
      | none => .error (.invalidDigit c)
      | some d =>
        if radix ≤ d then .error (.invalidDigit c)
        else if acc * radix + d < 2 ^ 256 then uintFromStrRadixGo radix cs (acc * radix + d)
        else .error .overflow

/-- Radix-tag recognition of ruint `FromStr for Uint`: a leading `"0x"`,
`"0b"` or `"0o"` selects hex, binary or octal; anything else is decimal. -/
def radixSplit (cs : List Char) : List Char × Nat :=
  match cs with
  | c0 :: c1 :: rest =>
    if c0 = '0' then
      if c1 = 'x' then (rest, 16)
      else if c1 = 'b' then (rest, 2)
      else if c1 = 'o' then (rest, 8)
      else (cs, 10)
    else (cs, 10)
  | _ => (cs, 10)

/-- Model of `alloy_primitives::U256::from_str` (ruint `FromStr`): strip an
optional radix tag, then run the checked digit loop. -/
def u256FromStr (s : String) : Except UintParseError Nat :=
  let p := radixSplit s.data
  uintFromStrRadixGo p.2 p.1 0

/-- The number denoted by a digit string under radix `r`, most significant
digit first (spec-side value function used to state parser facts). -/
def decFoldVal (r a : Nat) (cs : List Char) : Nat :=
  cs.foldl (fun acc c => acc * r + (c.toNat - '0'.toNat)) a

/-- Base-10 digit list of `n` (least significant first), with `0` written as
the single digit `0` as every decimal printer does. -/
def decDigits (n : Nat) : List Nat :=
  if n = 0 then [0] else Nat.digits 10 n

def u64Max : Nat := 2 ^ 64 - 1

/-- `u256_from_dec_str` (src/types/api.rs:253-259): `String::deserialize` — which
accepts only a JSON string token — followed by `U256::from_str`, whose error is
turned into a custom serde message. -/
def u256_from_dec_str : Json → Except String Nat
  | .str s =>
    match u256FromStr s with
    | .ok v => .ok v
    | .error _ => .error "invalid digit or overflow"
  | _ => .error "invalid type: expected a string"

/-- `u256_to_dec_str` (src/types/api.rs:262-268): `value.to_string()` (base-10),
re-parsed through `BigInt::from_str` and printed with `to_str_radix(10)` — the
identity on decimal text — then emitted as a JSON string. -/
def u256_to_dec_str (v : Nat) : Json := .str (natDecRepr v)

/-- `u256_from_dec` (src/types/api.rs:271-277): `Number::deserialize` followed by
`U256::from_str(number.as_str())`.  `serde_json::Number::as_str` exists only
under the `arbitrary_precision` feature, so that feature is on; its
deserializer accepts number tokens only (the visitor handles `visit_i64`,
`visit_u64`, `visit_f64` and the arbitrary-precision `visit_map`, but not
`visit_str`), and `as_str` of the resulting number is its canonical decimal
text. -/
def u256_from_dec : Json → Except String Nat
  | .num i =>
    match u256FromStr (numberAsStr i) with
    | .ok v => .ok v
    | .error _ => .error "invalid digit or overflow"
  | _ => .error "invalid type: expected a JSON number"

/-- `u256_to_dec` (src/types/api.rs:280-290): values up to `u128::MAX` are
serialized with `serialize_u128` (a JSON number); larger values fail. -/
def u256_to_dec (v : Nat) : Except String Json :=
  if v ≤ 2 ^ 128 - 1 then .ok (.num (v : Int))
  else .error "U256 value is too large for u128"

/-- `Counter` (src/types/api/orders.rs:164-167). -/
inductive Counter where
  | number (n : Nat)
  | text (s : String)
deriving DecidableEq

/-- `Counter` deserialization (src/types/api/orders.rs:169-207):
`deserialize_any` with a visitor mapping `visit_u64` to `Number` and
`visit_str`/`visit_string` to `Text`; every other token shape — including
numbers outside the `u64` range, which arrive as `visit_i64` or the
arbitrary-precision `visit_map` — hits an unimplemented visitor method and
errors. -/
def Counter.fromJson : Json → Except String Counter
  | .num i =>
    if 0 ≤ i ∧ i ≤ (u64Max : Int) then .ok (.number i.toNat)
    else .error "invalid type: expected a u64 or a string"
  | .str s => .ok (.text s)
  | _ => .error "invalid type: expected a u64 or a string"

/-- `Counter` serialization (src/types/api/orders.rs:210-221): `Number` with
`serialize_u64`, `Text` with `serialize_str`. -/
def Counter.toJson : Counter → Json
  | .number n => .num (n : Int)
  | .text s => .str s

/-- `UserId` (src/types/api.rs:300-301): a newtype over the normalized string. -/
structure UserId where
  val : String
deriving DecidableEq

/-- `UserId` deserialization (src/types/api.rs:303-334): `deserialize_any` with
a visitor mapping `visit_u64` to the number's decimal string and `visit_str` to
the string itself; other token shapes error. -/
def UserId.fromJson : Json → Except String UserId
  | .num i =>
    if 0 ≤ i ∧ i ≤ (u64Max : Int) then .ok ⟨natDecRepr i.toNat⟩
    else .error "invalid type: expected user ID as a number or string"
  | .str s => .ok ⟨s⟩
  | _ => .error "invalid type: expected user ID as a number or string"

/-- `UserId` serialization: the derived `Serialize` of a newtype struct emits
the inner string. -/
def UserId.toJson (u : UserId) : Json := .str u.val

/-- `OpenSeaDetailedErrorCode` (src/types/api.rs:336-340). -/
inductive OpenSeaDetailedErrorCode where
  | orderHashDoesNotExist
  | orderCannotBeFulfilled
deriving DecidableEq

/-- `OpenSeaErrorResponse` (src/types/api.rs:342-345). -/
structure OpenSeaErrorResponse where
  errors : List String
deriving DecidableEq

/-- Modelled from the spec: the `OpenSeaApiError` enum.  The current
`src/types.rs` that declares it is missing from the snapshot (the included
`types.rs` is an older revision inconsistent with `client.rs`); the variants
below are those constructed by the code in `src/client.rs` and
`src/types/api.rs` (`Reqwest` — transport and body-decoding failures converted
from `reqwest::Error`, `OpenSeaDetailedError`, `OpenSeaError`, `Other`),
plus the spec §7 `ServerStatus(status, body)` tag so that claims about it can
be stated. -/
inductive OpenSeaApiError where
  | reqwest (msg : String)
  | openSeaDetailedError (code : OpenSeaDetailedErrorCode)
  | openSeaError (res : OpenSeaErrorResponse)
  | other (msg : String)
  | serverStatus (status : Nat) (body : String)
deriving DecidableEq

/-- Field access on a JSON object, as derived serde struct deserializers see
it: a missing field or a non-object errors; unknown fields are ignored
(no `deny_unknown_fields` in the source). -/
def Json.field (j : Json) (key : String) : Except String Json :=
  match j with
  | .obj fields =>
    match fields.lookup key with
    | some v => .ok v
    | none => .error ("missing field " ++ key)
  | _ => .error "invalid type: expected an object"

/-- `String` deserialization: a JSON string token only. -/
def stringFromJson : Json → Except String String
  | .str s => .ok s
  | _ => .error "invalid type: expected a string"

/-- Sequence decoding: apply `f` to each element in order, first error wins
(the behavior of serde sequence visitors and of the source's per-element
loops). -/
def decodeSeq {ε α : Type} (f : Json → Except ε α) : List Json → Except ε (List α)
  | [] => .ok []
  | j :: js => do
    let a ← f j
    let as ← decodeSeq f js
    return a :: as

/-- `Vec<String>` deserialization. -/
def stringListFromJson : Json → Except String (List String)
  | .arr es => decodeSeq stringFromJson es
  | _ => .error "invalid type: expected an array"

/-- `u64` deserialization: an integer token in `0..=u64::MAX`. -/
def u64FromJson : Json → Except String Nat
  | .num i =>
    if 0 ≤ i ∧ i ≤ (u64Max : Int) then .ok i.toNat
    else .error "invalid value: expected a u64"
  | _ => .error "invalid type: expected a u64"

/-- `u8` deserialization: an integer token in `0..=255`. -/
def u8FromJson : Json → Except String Nat
  | .num i =>
    if 0 ≤ i ∧ i ≤ (255 : Int) then .ok i.toNat
    else .error "invalid value: expected a u8"
  | _ => .error "invalid type: expected a u8"

/-- Value of a single hex digit (both cases), `none` otherwise. -/
def hexVal (c : Char) : Option Nat :=
  match charDigitVal c with
  | some d => if d < 16 then some d else none
  | none => none

/-- Accumulate a hex digit string into a `Nat`, most significant first. -/
def hexCharsVal : List Char → Nat → Option Nat
  | [], acc => some acc
  | c :: cs, acc =>
    match hexVal c with
    | some d => hexCharsVal cs (acc * 16 + d)
    | none => none

/-- Strip one leading `"0x"` from a character list. -/
def strip0x (cs : List Char) : List Char :=
  match cs with
  | '0' :: 'x' :: rest => rest
  | _ => cs

/-- Deserialization of an `alloy_primitives::FixedBytes` hex field (`Address`
with 40 digits, `B256` with 64): a string of exactly `width` hex digits after
an optional `0x` tag, case-insensitive. -/
def fixedHexFromJson (width : Nat) : Json → Except String Nat
  | .str s =>
    let cs := strip0x s.data
    if cs.length = width then
      match hexCharsVal cs 0 with
      | some v => .ok v
      | none => .error "invalid character in hex string"
    else .error "invalid hex string length"
  | _ => .error "invalid type: expected a hex string"

/-- Hex digit pairs to bytes, as `alloy_primitives::Bytes::from_str` decodes
the body of a hex string (even number of digits required). -/
def hexPairsToBytes : List Char → Option (List Nat)
  | [] => some []
  | c1 :: c2 :: rest =>
    match hexVal c1, hexVal c2, hexPairsToBytes rest with
    | some h, some l, some bs => some ((h * 16 + l) :: bs)
    | _, _, _ => none
  | _ => none

/-- `bytes_from_str` (src/types/api.rs:244-250): `String::deserialize` then
`Bytes::from_str` (hex with an optional `0x` tag). -/
def bytes_from_str : Json → Except String (List Nat)
  | .str s =>
    match hexPairsToBytes (strip0x s.data) with
    | some bs => .ok bs
    | none => .error "invalid hex bytes"
  | _ => .error "invalid type: expected a string"

/-- Derived deserializer of `OpenSeaErrorResponse` (src/types/api.rs:342-345):
an object with an `errors` array of strings. -/
def OpenSeaErrorResponse.fromJson (j : Json) : Except String OpenSeaErrorResponse := do
  let e ← j.field "errors"
  let es ← stringListFromJson e
  return ⟨es⟩

/-- `AdditionalRecipient` (src/types/api.rs:225-230); `amount` is a 256-bit
value, `recipient` a 20-byte address. -/
structure AdditionalRecipient where
  amount : Nat
  recipient : Nat
deriving DecidableEq

/-- `Parameters` (src/types/api.rs:192-222): the camelCase on-chain call
record.  Addresses and hashes are their numeric value, `signature` its byte
list. -/
structure Parameters where
  consideration_token : Nat
  consideration_identifier : Nat
  consideration_amount : Nat
  offerer : Nat
  zone : Nat
  offer_token : Nat
  offer_identifier : Nat
  offer_amount : Nat
  basic_order_type : Nat
  start_time : Nat
  end_time : Nat
  zone_hash : Nat
  salt : Nat
  offerer_conduit_key : Nat
  fulfiller_conduit_key : Nat
  total_original_additional_recipients : Nat
  additional_recipients : List AdditionalRecipient
  signature : List Nat
deriving DecidableEq

/-- `InputData` (src/types/api.rs:186-189). -/
structure InputData where
  parameters : Parameters
deriving DecidableEq

/-- `Transaction` (src/types/api.rs:175-183); `value` uses the
number-or-nothing codec `u256_from_dec` / `u256_to_dec`. -/
structure Transaction where
  function : String
  chain : Nat
  «to» : String
  value : Nat
  input_data : InputData
deriving DecidableEq

/-- `FulfillmentData` (src/types/api.rs:169-172). -/
structure FulfillmentData where
  transaction : Transaction
deriving DecidableEq

/-- `FulfillListingResponse` (src/types/api.rs:153-157). -/
structure FulfillListingResponse where
  protocol : String
  fulfillment_data : FulfillmentData
deriving DecidableEq

/-- Derived deserializer of `AdditionalRecipient`: `amount` through
`u256_from_dec_str`, `recipient` as an address. -/
def AdditionalRecipient.fromJson (j : Json) : Except String AdditionalRecipient := do
  let amount ← u256_from_dec_str (← j.field "amount")
  let recipient ← fixedHexFromJson 40 (← j.field "recipient")
  return ⟨amount, recipient⟩

/-- `Vec<AdditionalRecipient>` deserialization. -/
def additionalRecipientsFromJson : Json → Except String (List AdditionalRecipient)
  | .arr es => decodeSeq AdditionalRecipient.fromJson es
  | _ => .error "invalid type: expected an array"

/-- Derived deserializer of `Parameters` (camelCase keys; the annotated fields
go through `u256_from_dec_str` and `bytes_from_str`). -/
def Parameters.fromJson (j : Json) : Except String Parameters := do
  let consideration_token ← fixedHexFromJson 40 (← j.field "considerationToken")
  let consideration_identifier ← u256_from_dec_str (← j.field "considerationIdentifier")
  let consideration_amount ← u256_from_dec_str (← j.field "considerationAmount")
  let offerer ← fixedHexFromJson 40 (← j.field "offerer")
  let zone ← fixedHexFromJson 40 (← j.field "zone")
  let offer_token ← fixedHexFromJson 40 (← j.field "offerToken")
  let offer_identifier ← u256_from_dec_str (← j.field "offerIdentifier")
  let offer_amount ← u256_from_dec_str (← j.field "offerAmount")
  let basic_order_type ← u8FromJson (← j.field "basicOrderType")
  let start_time ← u256_from_dec_str (← j.field "startTime")
  let end_time ← u256_from_dec_str (← j.field "endTime")
  let zone_hash ← fixedHexFromJson 64 (← j.field "zoneHash")
  let salt ← u256_from_dec_str (← j.field "salt")
  let offerer_conduit_key ← fixedHexFromJson 64 (← j.field "offererConduitKey")
  let fulfiller_conduit_key ← fixedHexFromJson 64 (← j.field "fulfillerConduitKey")
  let total_original_additional_recipients ←
    u256_from_dec_str (← j.field "totalOriginalAdditionalRecipients")
  let additional_recipients ← additionalRecipientsFromJson (← j.field "additionalRecipients")
  let signature ← bytes_from_str (← j.field "signature")
  return ⟨consideration_token, consideration_identifier, consideration_amount, offerer, zone,
    offer_token, offer_identifier, offer_amount, basic_order_type, start_time, end_time,
    zone_hash, salt, offerer_conduit_key, fulfiller_conduit_key,
    total_original_additional_recipients, additional_recipients, signature⟩

/-- Derived deserializer of `InputData`. -/
def InputData.fromJson (j : Json) : Except String InputData := do
  let parameters ← Parameters.fromJson (← j.field "parameters")
  return ⟨parameters⟩

/-- Derived deserializer of `Transaction`; `value` through `u256_from_dec`. -/
def Transaction.fromJson (j : Json) : Except String Transaction := do
  let function ← stringFromJson (← j.field "function")
  let chain ← u64FromJson (← j.field "chain")
  let toAddr ← stringFromJson (← j.field "to")
  let value ← u256_from_dec (← j.field "value")
  let input_data ← InputData.fromJson (← j.field "input_data")
  return ⟨function, chain, toAddr, value, input_data⟩

/-- Derived deserializer of `FulfillmentData`. -/
def FulfillmentData.fromJson (j : Json) : Except String FulfillmentData := do
  let transaction ← Transaction.fromJson (← j.field "transaction")
  return ⟨transaction⟩

/-- Derived deserializer of `FulfillListingResponse`. -/
def FulfillListingResponse.fromJson (j : Json) : Except String FulfillListingResponse := do
  let protocol ← stringFromJson (← j.field "protocol")
  let fulfillment_data ← FulfillmentData.fromJson (← j.field "fulfillment_data")
  return ⟨protocol, fulfillment_data⟩

/-- Response dispatch of `OpenSeaV2Client::fulfill_listing`
(src/client.rs:73-96) as a function of the HTTP status and the body: status
400 decodes the error envelope and promotes the two recognized first messages;
EVERY other status decodes the body as a success `FulfillListingResponse`.
Body-decoding failures surface through `?` on `res.json()` as converted
`reqwest::Error`s, i.e. the `Reqwest` variant. -/
def fulfillDispatch (status : Nat) (body : Json) :
    Except OpenSeaApiError FulfillListingResponse :=
  if status = 400 then
    match OpenSeaErrorResponse.fromJson body with
    | .error e => .error (.reqwest e)
    | .ok res =>
      match res.errors.head? with
      | some firstError =>
        if firstError = "The order_hash you provided does not exist" then
          .error (.openSeaDetailedError .orderHashDoesNotExist)
        else if firstError = "This order can not be fulfilled at this time." then
          .error (.openSeaDetailedError .orderCannotBeFulfilled)
        else .error (.openSeaError res)
      | none => .error (.openSeaError res)
  else
    match FulfillListingResponse.fromJson body with
    | .ok r => .ok r
    | .error e => .error (.reqwest e)

/-- `SEAPORT_V1` (src/constants.rs:2). -/
def SEAPORT_V1 : String := "0x00000000006c3852cbEf3e08E8dF289169EdE581"

/-- `SEAPORT_V4` (src/constants.rs:5). -/
def SEAPORT_V4 : String := "0x00000000000001ad428e4906aE43D8F9852d0dD6"

/-- `SEAPORT_V5` (src/constants.rs:8). -/
def SEAPORT_V5 : String := "0x00000000000000ADc04C56Bf30aC9d3c0aAF14dC"

/-- Modelled from the spec: `SEAPORT_V6`.  src/types/api.rs imports it from
`crate::constants`, but the snapshot's src/constants.rs does not define it;
spec §4.3 fixes V1.6 to this address. -/
def SEAPORT_V6 : String := "0x0000000000000068f116a894984e2db1123eb395"

/-- `PROTOCOL_VERSION` (src/constants.rs:13). -/
def PROTOCOL_VERSION : String := "v2"

/-- `API_BASE_MAINNET` (src/constants.rs:15). -/
def API_BASE_MAINNET : String := "https://api.opensea.io"

/-- `API_BASE_TESTNET` (src/constants.rs:16). -/
def API_BASE_TESTNET : String := "https://testnets-api.opensea.io"

/-- Modelled from the spec: the `Chain` enumeration (§4.1).  The current
`src/types.rs` that declares it is missing from the snapshot; members cover
the production networks named by the spec's canonical/alias table together
with the spec's designated test subset. -/
inductive Chain where
  | ethereum
  | matic
  | avalanche
  | base
  | bsc
  | arbitrum
  | optimism
  | solana
  | zora
  | klaytn
  | goerli
  | sepolia
  | mumbai
  | baobab
  | baseGoerli
  | bscTestnet
  | arbitrumGoerli
  | avalancheFuji
  | optimismGoerli
  | solanaDevnet
  | zoraTestnet
deriving DecidableEq

/-- Modelled from the spec: `Chain::is_test_chain` (called by
`OpenSeaV2Client::new`, src/client.rs:46).  Spec §4.1: true exactly for the
designated test-network subset. -/
def Chain.is_test_chain : Chain → Bool
  | .goerli | .sepolia | .mumbai | .baobab | .baseGoerli | .bscTestnet
  | .arbitrumGoerli | .avalancheFuji | .optimismGoerli | .solanaDevnet
  | .zoraTestnet => true
  | _ => false

/-- Modelled from the spec: the canonical wire name each `Chain` member emits
(§4.1: lower-snake-case tag, with `ethereum` / `matic` / `avalanche_fuji` as
the canonical forms of the aliased members). -/
def Chain.wireName : Chain → String
  | .ethereum => "ethereum"
  | .matic => "matic"
  | .avalanche => "avalanche"
  | .base => "base"
  | .bsc => "bsc"
  | .arbitrum => "arbitrum"
  | .optimism => "optimism"
  | .solana => "solana"
  | .zora => "zora"
  | .klaytn => "klaytn"
  | .goerli => "goerli"
  | .sepolia => "sepolia"
  | .mumbai => "mumbai"
  | .baobab => "baobab"
  | .baseGoerli => "base_goerli"
  | .bscTestnet => "bsc_testnet"
  | .arbitrumGoerli => "arbitrum_goerli"
  | .avalancheFuji => "avalanche_fuji"
  | .optimismGoerli => "optimism_goerli"
  | .solanaDevnet => "solana_devnet"
  | .zoraTestnet => "zora_testnet"

/-- Base URL computation of `OpenSeaV2Client::new` (src/client.rs:46-48):
pick the constant by `chain.is_test_chain()`, then
`format!("\x7bbase_url\x7d/\x7bPROTOCOL_VERSION\x7d")`.  The `api_key` part of
the configuration does not enter the URL, so the base URL is a function of the
chain alone. -/
def clientBaseUrl (chain : Chain) : String :=
  (if chain.is_test_chain then API_BASE_TESTNET else API_BASE_MAINNET) ++ "/" ++ PROTOCOL_VERSION

/-- `ProtocolVersion` (src/types/api.rs:160-166). -/
inductive ProtocolVersion where
  | v1_1
  | v1_4
  | v1_5
  | v1_6
deriving DecidableEq

/-- `protocol_version_to_str` (src/types/api.rs:232-241): serialize each
revision as its Seaport contract address constant. -/
def protocolVersionToStr : ProtocolVersion → String
  | .v1_1 => SEAPORT_V1
  | .v1_4 => SEAPORT_V4
  | .v1_5 => SEAPORT_V5
  | .v1_6 => SEAPORT_V6

/-- The protocol-version registry exactly as the spec's §4.3 table writes it
(spec-side definition, for comparison with `protocolVersionToStr`). -/
def specProtocolRegistry : ProtocolVersion → String
  | .v1_1 => "0x00000000006c3852cbEf3e08E8dF289169EdE581"
  | .v1_4 => "0x00000000000001ad428e4906aE43D8F9852d0dD6"
  | .v1_5 => "0x00000000000000ADc04C56Bf30aC9d3c0aAF14dC"
  | .v1_6 => "0x0000000000000068f116a894984e2db1123eb395"

/-- `Listing` (src/types/api.rs:138-144): `hash` is a `B256` value. -/
structure Listing where
  hash : Nat
  chain : Chain
  protocol_version : ProtocolVersion

/-- `Fulfiller` (src/types/api.rs:147-150): a 20-byte address. -/
structure Fulfiller where
  address : Nat

/-- `FulfillListingRequest` (src/types/api.rs:131-135). -/
structure FulfillListingRequest where
  listing : Listing
  fulfiller : Fulfiller

/-- Serialization of `FulfillListingRequest` (derived `Serialize`, fields in
declaration order): `hash` as 0x-prefixed lowercase hex, `chain` as its wire
name, `protocol_version` renamed to `protocol_address` and emitted through
`protocol_version_to_str`, the fulfiller's address as lowercase hex. -/
def FulfillListingRequest.toJson (r : FulfillListingRequest) : Json :=
  .obj [("listing", .obj [("hash", .str (b256ToHex r.listing.hash)),
                          ("chain", .str r.listing.chain.wireName),
                          ("protocol_address", .str (protocolVersionToStr r.listing.protocol_version))]),
        ("fulfiller", .obj [("address", .str (addressToHex r.fulfiller.address))])]

/-- `OrderDirection` (src/types/api.rs:20-25); serialized lowercase. -/
inductive OrderDirection where
  | asc
  | desc
deriving DecidableEq

/-- `OrderOpeningOption` (src/types/api.rs:27-32); serialized snake_case. -/
inductive OrderOpeningOption where
  | createdDate
  | ethPrice
deriving DecidableEq

/-- `RetrieveListingsRequest` (src/types/api.rs:34-62).  Addresses are their
numeric values; the two timestamps are embedded as their epoch-second values
(the `serde_as TimestampSeconds<i64>` wire form of `DateTime<Utc>`). -/
structure RetrieveListingsRequest where
  asset_contract_address : Option Nat := none
  limit : Option Nat := none
  token_ids : List String := []
  maker : Option Nat := none
  taker : Option Nat := none
  order_by : Option OrderOpeningOption := none
  order_direction : Option OrderDirection := none
  listed_after : Option Int := none
  listed_before : Option Int := none

/-- One optional serialized field: `skip_serializing_none` drops `None`
entirely and keeps `Some` under its key. -/
def optField (key : String) (o : Option α) (f : α → Json) : List (String × Json) :=
  match o with
  | some v => [(key, f v)]
  | none => []

/-- `RetrieveListingsRequest::to_map` (src/types/api.rs:83-85):
`serde_json::to_value` of the derived `Serialize`, an object whose entries
follow field declaration order (`serde_json`'s `preserve_order` map, as the
repository's own query-string test requires) with `None` fields skipped. -/
def RetrieveListingsRequest.to_map (r : RetrieveListingsRequest) : List (String × Json) :=
  optField "asset_contract_address" r.asset_contract_address (fun a => .str (addressToHex a))
    ++ optField "limit" r.limit (fun l => .num l)
    ++ [("token_ids", .arr (r.token_ids.map .str))]
    ++ optField "maker" r.maker (fun a => .str (addressToHex a))
    ++ optField "taker" r.taker (fun a => .str (addressToHex a))
    ++ optField "order_by" r.order_by
        (fun o => .str (match o with | .createdDate => "created_date" | .ethPrice => "eth_price"))
    ++ optField "order_direction" r.order_direction
        (fun o => .str (match o with | .asc => "asc" | .desc => "desc"))
    ++ optField "listed_after" r.listed_after (fun t => .num t)
    ++ optField "listed_before" r.listed_before (fun t => .num t)

/-- `value_to_string` (src/types/api.rs:72-79): numbers and booleans print,
strings pass through, anything else is the `Other` error. -/
def value_to_string : Json → Except OpenSeaApiError String
  | .num n => .ok (numberAsStr n)
  | .bool b => .ok (if b then "true" else "false")
  | .str s => .ok s
  | _ => .error (.other "Wrong value type")

/-- Entry expansion of `RetrieveListingsRequest::to_qs_vec`
(src/types/api.rs:90-104): an array value contributes one pair per element
under the same key, in order; every other value contributes one pair. -/
def qsEntries : List (String × Json) → Except OpenSeaApiError (List (String × String))
  | [] => .ok []
  | (k, Json.arr es) :: rest => do
    let vs ← decodeSeq value_to_string es
    let tl ← qsEntries rest
    return vs.map (fun v => (k, v)) ++ tl
  | (k, v) :: rest => do
    let s ← value_to_string v
    let tl ← qsEntries rest
    return (k, s) :: tl

/-- `RetrieveListingsRequest::to_qs_vec` (src/types/api.rs:90-104). -/
def RetrieveListingsRequest.to_qs_vec (r : RetrieveListingsRequest) :
    Except OpenSeaApiError (List (String × String)) :=
  qsEntries r.to_map

/-- Query-string rendering of the key/value pairs, as reqwest's
form-urlencoded query serializer emits them (percent-encoding is the identity
on every character these requests produce). -/
def qsRender (l : List (String × String)) : String :=
  "&".intercalate (l.map fun p => p.1 ++ "=" ++ p.2)

/-- A complete, well-formed fulfillment response body in the shape of the
repository's `resources/response_fulfill_listing_*.json` fixtures. -/
def cFulfillBody : Json :=
  .obj [("protocol", .str "seaport1.5"),
        ("fulfillment_data", .obj [("transaction", .obj [
          ("function", .str "fulfillBasicOrder_efficient_6GL6yc"),
          ("chain", .num 1),
          ("to", .str "0x00000000000000adc04c56bf30ac9d3c0aaf14dc"),
          ("value", .num 20000000000000000),
          ("input_data", .obj [("parameters", .obj [
            ("considerationToken", .str "0x0000000000000000000000000000000000000000"),
            ("considerationIdentifier", .str "0"),
            ("considerationAmount", .str "20000000000000000"),
            ("offerer", .str "0x1111111111111111111111111111111111111111"),
            ("zone", .str "0x0000000000000000000000000000000000000000"),
            ("offerToken", .str "0x2222222222222222222222222222222222222222"),
            ("offerIdentifier", .str "1234"),
            ("offerAmount", .str "1"),
            ("basicOrderType", .num 0),
            ("startTime", .str "1690000000"),
            ("endTime", .str "1690003600"),
            ("zoneHash", .str "0x0000000000000000000000000000000000000000000000000000000000000000"),
            ("salt", .str "51951570786726748464801742174577"),
            ("offererConduitKey", .str "0x0000000000000000000000000000000000000000000000000000000000000000"),
            ("fulfillerConduitKey", .str "0x0000000000000000000000000000000000000000000000000000000000000000"),
            ("totalOriginalAdditionalRecipients", .str "1"),
            ("additionalRecipients", .arr [.obj [
              ("amount", .str "500000000000000"),
              ("recipient", .str "0x3333333333333333333333333333333333333333")]]),
            ("signature", .str "0x")])])])])]

/-- The typed decoding of `cFulfillBody`. -/
def cFulfillResponse : FulfillListingResponse :=
  { protocol := "seaport1.5",
    fulfillment_data := { transaction := {
      function := "fulfillBasicOrder_efficient_6GL6yc",
      chain := 1,
      «to» := "0x00000000000000adc04c56bf30ac9d3c0aaf14dc",
      value := 20000000000000000,
      input_data := { parameters := {
        consideration_token := 0,
        consideration_identifier := 0,
        consideration_amount := 20000000000000000,
        offerer := 0x1111111111111111111111111111111111111111,
        zone := 0,
        offer_token := 0x2222222222222222222222222222222222222222,
        offer_identifier := 1234,
        offer_amount := 1,
        basic_order_type := 0,
        start_time := 1690000000,
        end_time := 1690003600,
        zone_hash := 0,
        salt := 51951570786726748464801742174577,
        offerer_conduit_key := 0,
        fulfiller_conduit_key := 0,
        total_original_additional_recipients := 1,
        additional_recipients := [{ amount := 500000000000000, recipient := 0x3333333333333333333333333333333333333333 }],
        signature := [] } } } } }

-- ### Parsing lemmas

theorem toNat_bounds_of_isDigit {c : Char} (h : c.isDigit = true) :
    48 ≤ c.toNat ∧ c.toNat ≤ 57 := by
  simp [Char.isDigit] at h
  exact h

theorem charDigitVal_of_isDigit {c : Char} (h : c.isDigit = true) :
    charDigitVal c = some (c.toNat - '0'.toNat) := by
  simp [charDigitVal, h]

theorem sub_lt_ten_of_isDigit {c : Char} (h : c.isDigit = true) :
    c.toNat - '0'.toNat < 10 := by
  have hb := toNat_bounds_of_isDigit h
  have h0 : '0'.toNat = 48 := by decide
  omega

theorem ne_underscore_of_isDigit {c : Char} (h : c.isDigit = true) : c ≠ '_' := by
  intro hc
  subst hc
  simp at h

theorem charDigitVal_eq_none_of_not_alphanum {c : Char} (h : ¬ c.isAlphanum = true) :
    charDigitVal c = none := by
  simp [Char.isAlphanum, Char.isAlpha] at h
  obtain ⟨⟨hu, hl⟩, hd⟩ := h
  simp [charDigitVal, hu, hl, hd]

theorem natBaseReprGo_eq_decDigits (n : Nat) : ∀ fuel acc, n < fuel →
    natBaseReprGo 10 fuel n acc = ((decDigits n).map Nat.digitChar).reverse ++ acc := by
  induction n using Nat.strong_induction_on with
  | _ n ih =>
    intro fuel acc hf
    match fuel, hf with
    | f + 1, hf1 =>
      rw [natBaseReprGo]
      by_cases h : n < 10
      · rw [if_pos h]
        by_cases h0 : n = 0
        · subst h0
          simp [decDigits]
        · have : Nat.digits 10 n = [n % 10] := by
            rw [Nat.digits_def' (by norm_num) (Nat.pos_of_ne_zero h0)]
            have : n / 10 = 0 := Nat.div_eq_of_lt h
            simp [this]
          simp [decDigits, h0, this, Nat.mod_eq_of_lt h]
      · rw [if_neg h]
        have h10 : 10 ≤ n := Nat.le_of_not_lt h
        have hdiv : n / 10 < n := Nat.div_lt_self (by omega) (by norm_num)
        have hfd : n / 10 < f := by
          have : n ≤ f := Nat.lt_succ_iff.mp hf1
          omega
        rw [ih (n / 10) hdiv f _ hfd]
        have hdig : Nat.digits 10 n = n % 10 :: Nat.digits 10 (n / 10) := by
          exact Nat.digits_def' (by norm_num) (by omega)
        have hnd : decDigits n = n % 10 :: Nat.digits 10 (n / 10) := by
          simp [decDigits, show n ≠ 0 by omega, hdig]
        have hd2 : decDigits (n / 10) = Nat.digits 10 (n / 10) ∨
            (n / 10 = 0 ∧ Nat.digits 10 (n / 10) = []) := by
          by_cases hz : n / 10 = 0
          · right
            simp [hz]
          · left
            simp [decDigits, hz]
        rcases hd2 with hd2 | ⟨hz, hnil⟩
        · rw [hnd, hd2]
          simp
        · exfalso
          have : 1 ≤ n / 10 := (Nat.one_le_div_iff (by norm_num)).mpr h10
          omega

theorem digitChar_facts : ∀ d < 10, (Nat.digitChar d).isDigit = true ∧
    (Nat.digitChar d).toNat - '0'.toNat = d := by decide

theorem natDecRepr_data (n : Nat) :
    (natDecRepr n).data = ((decDigits n).map Nat.digitChar).reverse := by
  show (String.mk (natBaseReprGo 10 (n + 1) n [])).data = _
  rw [natBaseReprGo_eq_decDigits n (n + 1) [] (Nat.lt_succ_self n)]
  simp

theorem natDecRepr_all_digits (n : Nat) :
    ∀ c ∈ (natDecRepr n).data, c.isDigit = true := by
  intro c hc
  rw [natDecRepr_data] at hc
  simp at hc
  obtain ⟨d, hd, hcd⟩ := hc
  have hdlt : d < 10 := by
    by_cases h0 : n = 0
    · simp [decDigits, h0] at hd
      omega
    · simp only [decDigits, if_neg h0] at hd
      exact Nat.digits_lt_base (by norm_num) hd
  subst hcd
  exact (digitChar_facts d hdlt).1

theorem decFoldVal_digitChars (r : Nat) :
    ∀ (L : List Nat), (∀ d ∈ L, d < 10) → ∀ a,
      decFoldVal r a ((L.map Nat.digitChar).reverse) = a * r ^ L.length + Nat.ofDigits r L := by
  intro L
  induction L with
  | nil =>
    intro _ a
    simp [decFoldVal, Nat.ofDigits_nil]
  | cons d T ihT =>
    intro hL a
    have hd : d < 10 := hL d (by simp)
    have hT : ∀ x ∈ T, x < 10 := fun x hx => hL x (by simp [hx])
    show decFoldVal r a ((Nat.digitChar d :: T.map Nat.digitChar).reverse) = _
    rw [List.reverse_cons]
    unfold decFoldVal
    rw [List.foldl_append]
    have := ihT hT a
    unfold decFoldVal at this
    rw [this]
    have hdc : (Nat.digitChar d).toNat - 48 = d := by
      have h2 := (digitChar_facts d hd).2
      simpa using h2
    simp [Nat.ofDigits_cons, hdc]
    ring

theorem ofDigits_decDigits (n : Nat) : Nat.ofDigits 10 (decDigits n) = n := by
  by_cases h0 : n = 0
  · simp [decDigits, h0, Nat.ofDigits]
  · simp only [decDigits, if_neg h0]
    exact Nat.ofDigits_digits 10 n

theorem decDigits_lt_ten (n : Nat) : ∀ d ∈ decDigits n, d < 10 := by
  intro d hd
  by_cases h0 : n = 0
  · simp [decDigits, h0] at hd
    omega
  · simp only [decDigits, if_neg h0] at hd
    exact Nat.digits_lt_base (by norm_num) hd

theorem decFoldVal_natDecRepr (n : Nat) : decFoldVal 10 0 (natDecRepr n).data = n := by
  rw [natDecRepr_data]
  rw [decFoldVal_digitChars 10 (decDigits n) (decDigits_lt_ten n) 0]
  rw [ofDigits_decDigits]
  simp

theorem decFoldVal_mono (r : Nat) (hr : 1 ≤ r) :
    ∀ (cs : List Char) (a : Nat), a ≤ decFoldVal r a cs := by
  intro cs
  induction cs with
  | nil => intro a; simp [decFoldVal]
  | cons c t iht =>
    intro a
    have step : a ≤ a * r + (c.toNat - '0'.toNat) := by
      have : a ≤ a * r := Nat.le_mul_of_pos_right a hr
      omega
    calc a ≤ a * r + (c.toNat - '0'.toNat) := step
      _ ≤ decFoldVal r (a * r + (c.toNat - '0'.toNat)) t := iht _
      _ = decFoldVal r a (c :: t) := rfl

theorem uintGo_complete (r : Nat) (hr : 10 ≤ r) :
    ∀ (cs : List Char) (a : Nat), (∀ c ∈ cs, c.isDigit = true) →
      decFoldVal r a cs < 2 ^ 256 →
      uintFromStrRadixGo r cs a = .ok (decFoldVal r a cs) := by
  intro cs
  induction cs with
  | nil => intro a _ _; simp [uintFromStrRadixGo, decFoldVal]
  | cons c t iht =>
    intro a hdig hbound
    have hc : c.isDigit = true := hdig c (by simp)
    have hne : c ≠ '_' := ne_underscore_of_isDigit hc
    have hval : charDigitVal c = some (c.toNat - '0'.toNat) := charDigitVal_of_isDigit hc
    have hlt : c.toNat - '0'.toNat < 10 := sub_lt_ten_of_isDigit hc
    have hstep : decFoldVal r a (c :: t) = decFoldVal r (a * r + (c.toNat - '0'.toNat)) t := rfl
    have hbound2 : a * r + (c.toNat - '0'.toNat) < 2 ^ 256 := by
      have hmono := decFoldVal_mono r (by omega) t (a * r + (c.toNat - '0'.toNat))
      rw [hstep] at hbound
      omega
    rw [uintFromStrRadixGo, if_neg hne, hval]
    dsimp only
    rw [if_neg (by omega : ¬ r ≤ c.toNat - '0'.toNat)]
    rw [if_pos hbound2]
    rw [hstep]
    exact iht _ (fun x hx => hdig x (by simp [hx])) (hstep ▸ hbound)

theorem uintGo_ok_lt (r : Nat) :
    ∀ (cs : List Char) (a v : Nat), uintFromStrRadixGo r cs a = .ok v →
      a < 2 ^ 256 → v < 2 ^ 256 := by
  intro cs
  induction cs with
  | nil =>
    intro a v h ha
    simp [uintFromStrRadixGo] at h
    omega
  | cons c t iht =>
    intro a v h ha
    rw [uintFromStrRadixGo] at h
    by_cases hu : c = '_'
    · rw [if_pos hu] at h
      exact iht a v h ha
    · rw [if_neg hu] at h
      cases hcv : charDigitVal c with
      | none => rw [hcv] at h; exact absurd h (by simp)
      | some d =>
        rw [hcv] at h
        dsimp only at h
        by_cases hrd : r ≤ d
        · rw [if_pos hrd] at h
          exact absurd h (by simp)
        · rw [if_neg hrd] at h
          by_cases hb : a * r + d < 2 ^ 256
          · rw [if_pos hb] at h
            exact iht _ v h hb
          · rw [if_neg hb] at h
            exact absurd h (by simp)

theorem uintGo_ok_val (r : Nat) :
    ∀ (cs : List Char) (a v : Nat), (∀ c ∈ cs, c.isDigit = true) →
      uintFromStrRadixGo r cs a = .ok v → v = decFoldVal r a cs := by
  intro cs
  induction cs with
  | nil =>
    intro a v _ h
    simp [uintFromStrRadixGo] at h
    simp [decFoldVal, h]
  | cons c t iht =>
    intro a v hdig h
    have hc : c.isDigit = true := hdig c (by simp)
    have hne : c ≠ '_' := ne_underscore_of_isDigit hc
    have hval : charDigitVal c = some (c.toNat - '0'.toNat) := charDigitVal_of_isDigit hc
    rw [uintFromStrRadixGo, if_neg hne, hval] at h
    dsimp only at h
    by_cases hrd : r ≤ c.toNat - '0'.toNat
    · rw [if_pos hrd] at h
      exact absurd h (by simp)
    · rw [if_neg hrd] at h
      by_cases hb : a * r + (c.toNat - '0'.toNat) < 2 ^ 256
      · rw [if_pos hb] at h
        exact iht _ v (fun x hx => hdig x (by simp [hx])) h
      · rw [if_neg hb] at h
        exact absurd h (by simp)

theorem uintGo_badchar (r : Nat) :
    ∀ (cs : List Char) (a : Nat) (c : Char), c ∈ cs → ¬ c.isAlphanum = true → c ≠ '_' →
      ∃ e, uintFromStrRadixGo r cs a = .error e := by
  intro cs
  induction cs with
  | nil =>
    intro a c hc
    exact absurd hc (by simp)
  | cons x t iht =>
    intro a c hc hna hnu
    rw [uintFromStrRadixGo]
    by_cases hxu : x = '_'
    · rw [if_pos hxu]
      have hct : c ∈ t := by
        rcases List.mem_cons.mp hc with h | h
        · exact absurd (h ▸ hxu) hnu
        · exact h
      exact iht a c hct hna hnu
    · rw [if_neg hxu]
      rcases List.mem_cons.mp hc with hcx | hct
      · subst hcx
        rw [charDigitVal_eq_none_of_not_alphanum hna]
        exact ⟨.invalidDigit c, rfl⟩
      · cases hcv : charDigitVal x with
        | none => exact ⟨.invalidDigit x, rfl⟩
        | some d =>
          dsimp only
          by_cases hrd : r ≤ d
          · rw [if_pos hrd]
            exact ⟨.invalidDigit x, rfl⟩
          · rw [if_neg hrd]
            by_cases hb : a * r + d < 2 ^ 256
            · rw [if_pos hb]
              exact iht _ c hct hna hnu
            · rw [if_neg hb]
              exact ⟨.overflow, rfl⟩

theorem radixSplit_of_digits (cs : List Char) (h : ∀ c ∈ cs, c.isDigit = true) :
    radixSplit cs = (cs, 10) := by
  match cs with
  | [] => rfl
  | [c] => rfl
  | c0 :: c1 :: rest =>
    have h1 : c1.isDigit = true := h c1 (by simp)
    have hx : c1 ≠ 'x' := by intro hx; rw [hx] at h1; simp at h1
    have hb : c1 ≠ 'b' := by intro hb; rw [hb] at h1; simp at h1
    have ho : c1 ≠ 'o' := by intro ho; rw [ho] at h1; simp at h1
    by_cases h0 : c0 = '0' <;> simp [radixSplit, h0, hx, hb, ho]

theorem radixSplit_cases (cs : List Char) :
    radixSplit cs = (cs, 10) ∨
      ∃ c0 c1 rest r, cs = c0 :: c1 :: rest ∧ radixSplit cs = (rest, r) ∧
        c0.isAlphanum = true ∧ c1.isAlphanum = true := by
  match cs with
  | [] => left; rfl
  | [c] => left; rfl
  | c0 :: c1 :: rest =>
    by_cases h0 : c0 = '0'
    · by_cases hx : c1 = 'x'
      · right
        exact ⟨c0, c1, rest, 16, rfl, by rw [h0, hx]; rfl, by rw [h0]; decide, by rw [hx]; decide⟩
      · by_cases hb : c1 = 'b'
        · right
          exact ⟨c0, c1, rest, 2, rfl, by rw [h0, hb]; rfl, by rw [h0]; decide, by rw [hb]; decide⟩
        · by_cases ho : c1 = 'o'
          · right
            exact ⟨c0, c1, rest, 8, rfl, by rw [h0, ho]; rfl, by rw [h0]; decide, by rw [ho]; decide⟩
          · left
            simp [radixSplit, h0, hx, hb, ho]
    · left
      simp [radixSplit, h0]

/-- Decimal acceptance of `U256::from_str`: a string of ASCII decimal digits
whose value fits in 256 bits parses to that value. -/
theorem u256FromStr_decimal (s : String) (h : ∀ c ∈ s.data, c.isDigit = true)
    (hb : decFoldVal 10 0 s.data < 2 ^ 256) :
    u256FromStr s = .ok (decFoldVal 10 0 s.data) := by
  unfold u256FromStr
  rw [radixSplit_of_digits s.data h]
  exact uintGo_complete 10 (le_refl 10) s.data 0 h hb

/-- Rejection of `U256::from_str` on any character that is neither
alphanumeric nor an underscore (in particular a sign). -/
theorem u256FromStr_badchar (s : String) (c : Char) (hm : c ∈ s.data)
    (hna : ¬ c.isAlphanum = true) (hnu : c ≠ '_') :
    ∃ e, u256FromStr s = .error e := by
  unfold u256FromStr
  rcases radixSplit_cases s.data with h | ⟨c0, c1, rest, r, hcs, hsp, ha0, ha1⟩
  · rw [h]
    exact uintGo_badchar 10 s.data 0 c hm hna hnu
  · rw [hsp]
    have hcr : c ∈ rest := by
      rw [hcs] at hm
      rcases List.mem_cons.mp hm with h | h
      · exact absurd (h ▸ ha0) hna
      · rcases List.mem_cons.mp h with h2 | h2
        · exact absurd (h2 ▸ ha1) hna
        · exact h2
    exact uintGo_badchar r rest 0 c hcr hna hnu

/-- Overflow rejection of `U256::from_str`: a decimal digit string denoting a
value of 256 bits or more fails. -/
theorem u256FromStr_overflow (s : String) (h : ∀ c ∈ s.data, c.isDigit = true)
    (hb : 2 ^ 256 ≤ decFoldVal 10 0 s.data) :
    ∃ e, u256FromStr s = .error e := by
  unfold u256FromStr
  rw [radixSplit_of_digits s.data h]
  cases hres : uintFromStrRadixGo 10 s.data 0 with
  | error e => exact ⟨e, rfl⟩
  | ok v =>
    exfalso
    have hv := uintGo_ok_val 10 s.data 0 v h hres
    have hlt := uintGo_ok_lt 10 s.data 0 v hres (by positivity)
    omega

/-- Radix-tag acceptance of `U256::from_str`: a `0x`-prefixed digit string is
read as hexadecimal. -/
theorem u256FromStr_hex (s : String) (h : ∀ c ∈ s.data, c.isDigit = true)
    (hb : decFoldVal 16 0 s.data < 2 ^ 256) :
    u256FromStr ("0x" ++ s) = .ok (decFoldVal 16 0 s.data) := by
  unfold u256FromStr
  have hdata : ("0x" ++ s).data = '0' :: 'x' :: s.data := by
    rw [String.data_append]
    rfl
  rw [hdata]
  exact uintGo_complete 16 (by norm_num) s.data 0 h hb

/-- Round trip of the decimal codec pair at the string level. -/
theorem u256FromStr_natDecRepr (n : Nat) (hb : n < 2 ^ 256) :
    u256FromStr (natDecRepr n) = .ok n := by
  have h := u256FromStr_decimal (natDecRepr n) (natDecRepr_all_digits n)
    (by rw [decFoldVal_natDecRepr]; exact hb)
  rw [decFoldVal_natDecRepr] at h
  exact h

-- ### Envelope and query-string lemmas

theorem except_bind_ok {ε α β : Type} {e : Except ε α} {f : α → Except ε β} {b : β}
    (h : (e >>= f) = .ok b) : ∃ a, e = .ok a ∧ f a = .ok b := by
  cases e with
  | ok a => exact ⟨a, rfl, h⟩
  | error c => exact Except.noConfusion h

theorem decodeSeq_str_ok (es : List String) :
    decodeSeq stringFromJson (es.map Json.str) = .ok es := by
  induction es with
  | nil => rfl
  | cons s t ih =>
    show (stringFromJson (.str s) >>= fun a =>
      decodeSeq stringFromJson (t.map Json.str) >>= fun as => pure (a :: as)) = .ok (s :: t)
    rw [ih]
    rfl

theorem decodeSeq_value_str_ok (es : List String) :
    decodeSeq value_to_string (es.map Json.str) = .ok es := by
  induction es with
  | nil => rfl
  | cons s t ih =>
    show (value_to_string (.str s) >>= fun a =>
      decodeSeq value_to_string (t.map Json.str) >>= fun as => pure (a :: as)) = .ok (s :: t)
    rw [ih]
    rfl

theorem qsEntries_keys :
    ∀ (entries : List (String × Json)) (out : List (String × String)),
      qsEntries entries = .ok out → ∀ p ∈ out, p.1 ∈ entries.map Prod.fst := by
  intro entries
  induction entries with
  | nil =>
    intro out h p hp
    injection h with h
    subst h
    exact absurd hp (by simp)
  | cons kv rest ih =>
    intro out h p hp
    obtain ⟨k, v⟩ := kv
    cases v with
    | arr es =>
      obtain ⟨vs, hvs, h2⟩ := except_bind_ok h
      obtain ⟨tl, htl, h3⟩ := except_bind_ok h2
      have hout : out = vs.map (fun v => (k, v)) ++ tl := by
        injection h3 with h3
        exact h3.symm
      subst hout
      rcases List.mem_append.mp hp with hin | hin
      · obtain ⟨x, _, hx⟩ := List.mem_map.mp hin
        simp [← hx]
      · have := ih tl htl p hin
        simp
        right
        simpa using this
    | null =>
      exact Except.noConfusion h
    | bool b =>
      obtain ⟨s, hs, h2⟩ := except_bind_ok h
      obtain ⟨tl, htl, h3⟩ := except_bind_ok h2
      have hout : out = (k, s) :: tl := by
        injection h3 with h3
        exact h3.symm
      subst hout
      rcases List.mem_cons.mp hp with hin | hin
      · simp [hin]
      · have := ih tl htl p hin
        simp
        right
        simpa using this
    | num n =>
      obtain ⟨s, hs, h2⟩ := except_bind_ok h
      obtain ⟨tl, htl, h3⟩ := except_bind_ok h2
      have hout : out = (k, s) :: tl := by
        injection h3 with h3
        exact h3.symm
      subst hout
      rcases List.mem_cons.mp hp with hin | hin
      · simp [hin]
      · have := ih tl htl p hin
        simp
        right
        simpa using this
    | str s0 =>
      obtain ⟨s, hs, h2⟩ := except_bind_ok h
      obtain ⟨tl, htl, h3⟩ := except_bind_ok h2
      have hout : out = (k, s) :: tl := by
        injection h3 with h3
        exact h3.symm
      subst hout
      rcases List.mem_cons.mp hp with hin | hin
      · simp [hin]
      · have := ih tl htl p hin
        simp
        right
        simpa using this
    | obj fs =>
      obtain ⟨s, hs, h2⟩ := except_bind_ok h
      exact Except.noConfusion hs

theorem mem_optField_keys {α : Type} (k : String) (o : Option α) (f : α → Json) (s : String) :
    s ∈ (optField k o f).map Prod.fst → s = k := by
  cases o with
  | none => intro h; exact absurd h (by simp [optField])
  | some v => intro h; simpa [optField] using h

-- ### Claim theorems

/-- C5: for every 256-bit unsigned integer v, decoding the decimal-string
encoding of v with the U256-as-decimal-string codec yields v again
(`decimal-decode(decimal-encode(v)) == v`). -/
theorem C5_decimal_roundtrip (v : Nat) (h : v < 2 ^ 256) :
    u256_from_dec_str (u256_to_dec_str v) = .ok v := by
  show u256_from_dec_str (.str (natDecRepr v)) = .ok v
  rw [u256_from_dec_str]
  rw [u256FromStr_natDecRepr v h]

/-- Witness for C5 at the v1.6 fixture value. -/
theorem C5_decimal_roundtrip_witness :
    23690000000000000000 < 2 ^ 256 ∧
      u256_from_dec_str (u256_to_dec_str 23690000000000000000) = .ok 23690000000000000000 :=
  ⟨by norm_num, C5_decimal_roundtrip 23690000000000000000 (by norm_num)⟩

/-- C1 counterexample: the `transaction.value` codec `u256_from_dec` does NOT
decode a JSON string — `Number::deserialize` rejects string tokens — while the
decimal-string codec accepts the same text. -/
theorem C1_counterexample :
    u256_from_dec (Json.str "5") = .error "invalid type: expected a JSON number" ∧
      u256_from_dec_str (Json.str "5") = .ok 5 :=
  ⟨rfl, rfl⟩

/-- C1 (amended): the `transaction.value` codec decodes a JSON number into a
256-bit unsigned integer (failing above 2^256-1 and on negative numbers),
rejects every JSON string, and encodes as a JSON number exactly when the value
fits in 128 bits, failing with the value-too-large error otherwise. -/
theorem C1_value_codec :
    (∀ i : Int, 0 ≤ i → i < 2 ^ 256 → u256_from_dec (.num i) = .ok i.toNat) ∧
    (∀ i : Int, (2 ^ 256 : Int) ≤ i → u256_from_dec (.num i) = .error "invalid digit or overflow") ∧
    (∀ i : Int, i < 0 → u256_from_dec (.num i) = .error "invalid digit or overflow") ∧
    (∀ s : String, u256_from_dec (.str s) = .error "invalid type: expected a JSON number") ∧
    (∀ v : Nat, v ≤ 2 ^ 128 - 1 → u256_to_dec v = .ok (.num (v : Int))) ∧
    (∀ v : Nat, 2 ^ 128 - 1 < v → u256_to_dec v = .error "U256 value is too large for u128") := by
  refine ⟨?_, ?_, ?_, fun s => rfl, ?_, ?_⟩
  · intro i h0 hlt
    have hrepr : numberAsStr i = natDecRepr i.toNat := by
      rw [numberAsStr, if_neg (by omega)]
    show (match u256FromStr (numberAsStr i) with
      | Except.ok v => Except.ok v
      | Except.error _ => Except.error "invalid digit or overflow") = Except.ok i.toNat
    rw [hrepr, u256FromStr_natDecRepr i.toNat (by omega)]
  · intro i hge
    have hrepr : numberAsStr i = natDecRepr i.toNat := by
      rw [numberAsStr, if_neg (by omega)]
    obtain ⟨e, he⟩ := u256FromStr_overflow (natDecRepr i.toNat)
      (natDecRepr_all_digits i.toNat)
      (by rw [decFoldVal_natDecRepr]; omega)
    show (match u256FromStr (numberAsStr i) with
      | Except.ok v => Except.ok v
      | Except.error _ => Except.error "invalid digit or overflow") = _
    rw [hrepr, he]
  · intro i hneg
    have hrepr : numberAsStr i = "-" ++ natDecRepr (-i).toNat := by
      rw [numberAsStr, if_pos hneg]
    have hmem : '-' ∈ ("-" ++ natDecRepr (-i).toNat).data := by
      rw [String.data_append]
      exact List.mem_append.mpr (Or.inl (by decide))
    obtain ⟨e, he⟩ := u256FromStr_badchar ("-" ++ natDecRepr (-i).toNat) '-' hmem
      (by decide) (by decide)
    show (match u256FromStr (numberAsStr i) with
      | Except.ok v => Except.ok v
      | Except.error _ => Except.error "invalid digit or overflow") = _
    rw [hrepr, he]
  · intro v hv
    rw [u256_to_dec, if_pos hv]
  · intro v hv
    rw [u256_to_dec, if_neg (by omega)]

/-- Witness for C1 at the v1.5 fixture value and at both sides of the 128-bit
encoding boundary. -/
theorem C1_value_codec_witness :
    u256_from_dec (Json.num 20000000000000000) = .ok 20000000000000000 ∧
      u256_to_dec 340282366920938463463374607431768211455 =
        .ok (.num 340282366920938463463374607431768211455) ∧
      u256_to_dec 340282366920938463463374607431768211456 =
        .error "U256 value is too large for u128" :=
  ⟨C1_value_codec.1 20000000000000000 (by norm_num) (by norm_num),
   C1_value_codec.2.2.2.2.1 340282366920938463463374607431768211455 (by norm_num),
   C1_value_codec.2.2.2.2.2 340282366920938463463374607431768211456 (by norm_num)⟩

/-- C6 counterexample: a `0x`-prefixed string — which contains the non-digit
character `x` — does not fail: `U256::from_str` reads it as hexadecimal. -/
theorem C6_counterexample :
    u256_from_dec_str (Json.str "0x10") = .ok 16 ∧ ('x').isDigit = false :=
  ⟨rfl, rfl⟩

/-- C6 (amended): the U256-as-decimal-string codec accepts exactly JSON
strings; a string of decimal digits denoting a value below 2^256 decodes to
that value, a character that is neither alphanumeric nor an underscore
(in particular a leading sign) makes decoding fail, as does overflow of a
digit string — but, departing from the claim, a `0x`-prefixed string is read
as hexadecimal rather than rejected (`0b`/`0o` likewise select binary/octal,
and underscores are skipped as separators). -/
theorem C6_decimal_string_codec :
    (∀ s : String, (∀ c ∈ s.data, c.isDigit = true) → decFoldVal 10 0 s.data < 2 ^ 256 →
      u256_from_dec_str (.str s) = .ok (decFoldVal 10 0 s.data)) ∧
    (∀ s : String, ∀ c ∈ s.data, ¬ c.isAlphanum = true → c ≠ '_' →
      u256_from_dec_str (.str s) = .error "invalid digit or overflow") ∧
    (∀ s : String, (∀ c ∈ s.data, c.isDigit = true) → 2 ^ 256 ≤ decFoldVal 10 0 s.data →
      u256_from_dec_str (.str s) = .error "invalid digit or overflow") ∧
    (∀ s : String, (∀ c ∈ s.data, c.isDigit = true) → decFoldVal 16 0 s.data < 2 ^ 256 →
      u256_from_dec_str (.str ("0x" ++ s)) = .ok (decFoldVal 16 0 s.data)) ∧
    (∀ i : Int, u256_from_dec_str (.num i) = .error "invalid type: expected a string") := by
  refine ⟨?_, ?_, ?_, ?_, fun i => rfl⟩
  · intro s hdig hb
    show (match u256FromStr s with
      | Except.ok v => Except.ok v
      | Except.error _ => Except.error "invalid digit or overflow") = _
    rw [u256FromStr_decimal s hdig hb]
  · intro s c hm hna hnu
    obtain ⟨e, he⟩ := u256FromStr_badchar s c hm hna hnu
    show (match u256FromStr s with
      | Except.ok v => Except.ok v
      | Except.error _ => Except.error "invalid digit or overflow") = _
    rw [he]
  · intro s hdig hb
    obtain ⟨e, he⟩ := u256FromStr_overflow s hdig hb
    show (match u256FromStr s with
      | Except.ok v => Except.ok v
      | Except.error _ => Except.error "invalid digit or overflow") = _
    rw [he]
  · intro s hdig hb
    show (match u256FromStr ("0x" ++ s) with
      | Except.ok v => Except.ok v
      | Except.error _ => Except.error "invalid digit or overflow") = _
    rw [u256FromStr_hex s hdig hb]

/-- Witness for C6: a plain digit string, a signed string, a 79-nine overflow
string, and a hex-tagged string. -/
theorem C6_decimal_string_codec_witness :
    u256_from_dec_str (.str "37") = .ok 37 ∧
      u256_from_dec_str (.str "-37") = .error "invalid digit or overflow" ∧
      u256_from_dec_str
        (.str "9999999999999999999999999999999999999999999999999999999999999999999999999999999") =
        .error "invalid digit or overflow" ∧
      u256_from_dec_str (.str ("0x" ++ "10")) = .ok 16 := by
  refine ⟨?_, ?_, ?_, ?_⟩
  · have h := C6_decimal_string_codec.1 "37" (by decide) (by decide)
    simpa using h
  · exact C6_decimal_string_codec.2.1 "-37" '-' (by decide) (by decide) (by decide)
  · exact C6_decimal_string_codec.2.2.1
      "9999999999999999999999999999999999999999999999999999999999999999999999999999999"
      (by decide) (by decide)
  · have h := C6_decimal_string_codec.2.2.2.1 "10" (by decide) (by decide)
    simpa using h

/-- C2 counterexample: a status-500 response whose body happens to be a valid
fulfillment payload is decoded as a SUCCESS — `fulfill_listing` does not
return a `ServerError(status, body)` for non-2xx non-400 statuses; it decodes
the body as a success response. -/
theorem C2_counterexample : fulfillDispatch 500 cFulfillBody = .ok cFulfillResponse := rfl

/-- C2 (amended): for every response whose status is not 400 — including
non-2xx statuses — `fulfill_listing` decodes the body as a success
`FulfillListingResponse`, returning the decoded value or the converted decode
error; no `ServerStatus(status, body)` error is ever produced, for any status
and body. -/
theorem C2_non400_dispatch :
    (∀ (status : Nat) (body : Json), status ≠ 400 →
      fulfillDispatch status body =
        match FulfillListingResponse.fromJson body with
        | .ok r => .ok r
        | .error e => .error (.reqwest e)) ∧
    (∀ (status : Nat) (body : Json) (s : Nat) (b : String),
      fulfillDispatch status body ≠ .error (.serverStatus s b)) := by
  constructor
  · intro status body h
    rw [fulfillDispatch, if_neg h]
  · intro status body s b
    rw [fulfillDispatch]
    by_cases h : status = 400
    · rw [if_pos h]
      cases hdec : OpenSeaErrorResponse.fromJson body with
      | error e => simp
      | ok res =>
        dsimp only
        cases hh : res.errors.head? with
        | none => simp
        | some m =>
          dsimp only
          by_cases h1 : m = "The order_hash you provided does not exist"
          · simp [h1]
          · by_cases h2 : m = "This order can not be fulfilled at this time."
            · simp [h1, h2]
            · simp [h1, h2]
    · rw [if_neg h]
      cases hdec : FulfillListingResponse.fromJson body with
      | ok r => simp
      | error e => simp

/-- Witness for C2 at status 500: an empty object body fails to decode and
surfaces as a converted decode error, never as `ServerStatus`. -/
theorem C2_non400_dispatch_witness :
    fulfillDispatch 500 (Json.obj []) = .error (.reqwest "missing field protocol") ∧
      fulfillDispatch 500 (Json.obj []) ≠ .error (.serverStatus 500 "") := by
  constructor
  · rw [C2_non400_dispatch.1 500 (Json.obj []) (by decide)]
    rfl
  · exact C2_non400_dispatch.2 500 (Json.obj []) 500 ""

/-- C3: for every 400 response with body `{"errors": [...]}`, the first
message selects the tagged error when it is exactly one of the two recognized
strings; any other first message — and an empty list — yields the generic
envelope error with all messages preserved. -/
theorem C3_error_promotion (es : List String) :
    fulfillDispatch 400 (.obj [("errors", .arr (es.map Json.str))]) =
      .error (match es.head? with
        | none => .openSeaError ⟨es⟩
        | some m =>
          if m = "The order_hash you provided does not exist" then
            .openSeaDetailedError .orderHashDoesNotExist
          else if m = "This order can not be fulfilled at this time." then
            .openSeaDetailedError .orderCannotBeFulfilled
          else .openSeaError ⟨es⟩) := by
  have hdecode : OpenSeaErrorResponse.fromJson (.obj [("errors", .arr (es.map Json.str))]) =
      .ok ⟨es⟩ := by
    show (decodeSeq stringFromJson (es.map Json.str) >>= fun l =>
      pure (OpenSeaErrorResponse.mk l)) = .ok (OpenSeaErrorResponse.mk es)
    rw [decodeSeq_str_ok]
    rfl
  rw [fulfillDispatch, if_pos rfl, hdecode]
  cases es with
  | nil => rfl
  | cons m t =>
    show (if m = "The order_hash you provided does not exist" then
        (.error (.openSeaDetailedError .orderHashDoesNotExist) :
          Except OpenSeaApiError FulfillListingResponse)
      else if m = "This order can not be fulfilled at this time." then
        .error (.openSeaDetailedError .orderCannotBeFulfilled)
      else .error (.openSeaError ⟨m :: t⟩)) = _
    by_cases h1 : m = "The order_hash you provided does not exist"
    · simp [h1]
    · by_cases h2 : m = "This order can not be fulfilled at this time."
      · simp [h1, h2]
      · simp [h1, h2]

/-- C4 counterexample: for the production chain Ethereum the base URL is
`https://api.opensea.io/v2` — the claimed production base
`https://api.opensea.io/api` (giving `https://api.opensea.io/api/v2`) does not
match the code's `API_BASE_MAINNET`. -/
theorem C4_counterexample :
    Chain.ethereum.is_test_chain = false ∧
      clientBaseUrl Chain.ethereum = "https://api.opensea.io/v2" ∧
      clientBaseUrl Chain.ethereum ≠ "https://api.opensea.io/api/v2" :=
  ⟨rfl, rfl, by decide⟩

/-- C4 (amended): for every configuration, the client's base URL is
`https://api.opensea.io` followed by the path segment `v2` when the configured
chain is a production network, and `https://testnets-api.opensea.io` followed
by `v2` when it is a test network. -/
theorem C4_base_url (c : Chain) :
    clientBaseUrl c =
      if c.is_test_chain then "https://testnets-api.opensea.io/v2"
      else "https://api.opensea.io/v2" := by
  cases c <;> rfl

/-- C7: query-string linearization — the documented example request produces
exactly the expected query; `None` fields are omitted (shown for
`asset_contract_address` over every request); and a request whose only content
is `token_ids` linearizes to one `token_ids` parameter per element, in
order. -/
theorem C7_qs_linearization :
    ((RetrieveListingsRequest.to_qs_vec
        { asset_contract_address := some 0xBC4CA0EdA7647A8aB7C2061c2E118A18a936f13D,
          token_ids := ["1", "2", "3"],
          listed_after := some 1691681235 }).map qsRender
      = .ok ("asset_contract_address=0xbc4ca0eda7647a8ab7c2061c2e118a18a936f13d" ++
          "&token_ids=1&token_ids=2&token_ids=3&listed_after=1691681235")) ∧
    (∀ (r : RetrieveListingsRequest) (l : List (String × String)),
      r.asset_contract_address = none → r.to_qs_vec = .ok l →
        "asset_contract_address" ∉ l.map Prod.fst) ∧
    (∀ ids : List String,
      RetrieveListingsRequest.to_qs_vec { token_ids := ids } =
        .ok (ids.map fun t => ("token_ids", t))) := by
  refine ⟨by rfl, ?_, ?_⟩
  · intro r l hnone hqs hmem
    obtain ⟨p, hpl, hpk⟩ := List.mem_map.mp hmem
    have hkey := qsEntries_keys r.to_map l hqs p hpl
    rw [hpk] at hkey
    revert hkey
    rw [RetrieveListingsRequest.to_map, hnone]
    intro hkey
    simp only [List.map_append, List.mem_append] at hkey
    rcases hkey with ((((((((h | h) | h) | h) | h) | h) | h) | h) | h) <;> first
      | exact absurd (mem_optField_keys _ _ _ _ h) (by decide)
      | simp [optField] at h
  · intro ids
    show qsEntries [("token_ids", .arr (ids.map .str))] = _
    show (decodeSeq value_to_string (ids.map .str) >>= fun vs =>
      qsEntries [] >>= fun tl => pure (vs.map (fun v => ("token_ids", v)) ++ tl)) = _
    rw [decodeSeq_value_str_ok]
    show Except.ok ((ids.map fun t => ("token_ids", t)) ++ []) = _
    rw [List.append_nil]

/-- Witness for C7: the omitted-key clause at the default request (which
linearizes to the empty `token_ids` array and nothing else), and the
per-element clause at a singleton. -/
theorem C7_qs_linearization_witness :
    "asset_contract_address" ∉
        (([("token_ids", "1")] : List (String × String)).map Prod.fst) ∧
      RetrieveListingsRequest.to_qs_vec { token_ids := ["1"] } = .ok [("token_ids", "1")] :=
  ⟨C7_qs_linearization.2.1 { token_ids := ["1"] } [("token_ids", "1")] rfl
      (C7_qs_linearization.2.2 ["1"]),
    C7_qs_linearization.2.2 ["1"]⟩

/-- C8: the documented fulfill request serializes to exactly the expected JSON
text, and every `ProtocolVersion` serializes as the contract address the
protocol-version registry fixes for it. -/
theorem C8_fulfill_serialization :
    Json.render (FulfillListingRequest.toJson
        { listing := { hash := 0, chain := .ethereum, protocol_version := .v1_5 },
          fulfiller := { address := 0xBC4CA0EdA7647A8aB7C2061c2E118A18a936f13D } })
      = "\x7b\"listing\":\x7b\"hash\":\"0x0000000000000000000000000000000000000000000000000000000000000000\",\"chain\":\"ethereum\",\"protocol_address\":\"0x00000000000000ADc04C56Bf30aC9d3c0aAF14dC\"\x7d,\"fulfiller\":\x7b\"address\":\"0xbc4ca0eda7647a8ab7c2061c2e118a18a936f13d\"\x7d\x7d" ∧
    ∀ pv : ProtocolVersion, protocolVersionToStr pv = specProtocolRegistry pv := by
  refine ⟨by rfl, ?_⟩
  intro pv
  cases pv <;> rfl

/-- C9: the `Counter` field decodes the JSON number 0 to `Number 0` and the
JSON string "0" to `Text "0"`, and every decoded counter re-serializes to the
JSON value it was decoded from (numbers stay numbers, strings stay strings,
with the same content). -/
theorem C9_counter_shape :
    Counter.fromJson (.num 0) = .ok (.number 0) ∧
      Counter.fromJson (.str "0") = .ok (.text "0") ∧
      ∀ (j : Json) (c : Counter), Counter.fromJson j = .ok c → Counter.toJson c = j := by
  refine ⟨rfl, rfl, ?_⟩
  intro j c h
  cases j with
  | num i =>
    by_cases hle : 0 ≤ i ∧ i ≤ (u64Max : Int)
    · rw [Counter.fromJson, if_pos hle] at h
      injection h with h
      subst h
      show Json.num (i.toNat : Int) = Json.num i
      rw [Int.toNat_of_nonneg hle.1]
    · rw [Counter.fromJson, if_neg hle] at h
      exact Except.noConfusion h
  | str s =>
    injection h with h
    subst h
    rfl
  | null => exact Except.noConfusion h
  | bool b => exact Except.noConfusion h
  | arr es => exact Except.noConfusion h
  | obj fs => exact Except.noConfusion h

/-- Witness for C9: the round-trip clause applied at the number 7. -/
theorem C9_counter_shape_witness :
    Counter.toJson (Counter.number 7) = Json.num 7 :=
  C9_counter_shape.2.2 (Json.num 7) (Counter.number 7) rfl

/-- C10: `UserId` decodes a JSON number to the decimal string and always
re-serializes as a JSON string — unlike `Counter`, the incoming JSON shape is
not preserved on a decode-encode round trip. -/
theorem C10_userid_normalization (i : Int) (h0 : 0 ≤ i) (h1 : i ≤ (u64Max : Int)) :
    UserId.fromJson (.num i) = .ok ⟨natDecRepr i.toNat⟩ ∧
      UserId.toJson ⟨natDecRepr i.toNat⟩ = .str (natDecRepr i.toNat) ∧
      UserId.toJson ⟨natDecRepr i.toNat⟩ ≠ .num i := by
  refine ⟨?_, rfl, by simp [UserId.toJson]⟩
  rw [UserId.fromJson, if_pos ⟨h0, h1⟩]

/-- Witness for C10 at the user id of the repository's own account fixture. -/
theorem C10_userid_normalization_witness :
    UserId.fromJson (.num 14210173) = .ok ⟨"14210173"⟩ ∧
      UserId.toJson ⟨"14210173"⟩ ≠ .num 14210173 := by
  have h := C10_userid_normalization 14210173 (by decide) (by decide)
  exact ⟨h.1, h.2.2⟩

end OpenSea

